import Mathlib

/-!
A shallow embedding of the `testfill` Go library: an annotation-driven
value-filling engine that populates zero-valued fields of a structure from
`testfill` struct tags.  Go's reflective walk is modelled over explicit
type descriptors (`Ty`, `Fields`) and runtime values (`Value`); machine
integers are `Int`/`Nat` with explicit range checks mirroring `strconv`;
errors are strings built exactly as the Go `fmt.Errorf` calls build them,
and Go panics are a separate outcome that no error-wrapping frame touches.
String helpers are implemented structurally over `List Char` so that the
kernel can evaluate the engine on concrete inputs.
-/

namespace Testfill

instance {ε α : Type} [DecidableEq ε] [DecidableEq α] : DecidableEq (Except ε α) := fun a b =>
  match a, b with
  | .ok x, .ok y => if h : x = y then .isTrue (by rw [h]) else .isFalse (by simp [h])
  | .error x, .error y => if h : x = y then .isTrue (by rw [h]) else .isFalse (by simp [h])
  | .ok _, .error _ => .isFalse (by simp)
  | .error _, .ok _ => .isFalse (by simp)

/-! ## Go string primitives, modelled structurally -/

def splitChAux (c : Char) : List Char → List Char → List (List Char)
  | [], acc => [acc.reverse]
  | d :: rest, acc =>
    if d = c then acc.reverse :: splitChAux c rest [] else splitChAux c rest (d :: acc)

/-- Go `strings.Split` with a single-character separator (the only separators
the engine uses are `","`, `":"` and `"="`).  `Split("", sep) = [""]`. -/
def goSplit (s : String) (c : Char) : List String :=
  (splitChAux c s.data []).map List.asString

def isPreCh : List Char → List Char → Bool
  | [], _ => true
  | _ :: _, [] => false
  | p :: ps, c :: cs => p = c && isPreCh ps cs

/-- Go `strings.HasPrefix`. -/
def goStartsWith (s pre : String) : Bool := isPreCh pre.data s.data

def dropN {α : Type} : Nat → List α → List α
  | 0, l => l
  | _ + 1, [] => []
  | n + 1, _ :: l => dropN n l

/-- Go `strings.TrimPrefix`: drops `pre` when it is a prefix, else returns `s`. -/
def goStripPre (s pre : String) : String :=
  if goStartsWith s pre then (dropN pre.data.length s.data).asString else s

/-- The ASCII white-space set Go's `strings.TrimSpace` strips
(space, tab, newline, vertical tab, form feed, carriage return). -/
def goIsSpace (c : Char) : Bool :=
  c = ' ' || c = '\t' || c = '\n' || c = Char.ofNat 11 || c = Char.ofNat 12 || c = '\r'

def dropLeading : List Char → List Char
  | [] => []
  | c :: cs => if goIsSpace c then dropLeading cs else c :: cs

/-- Go `strings.TrimSpace` (for the ASCII inputs the engine deals in). -/
def goTrimSpace (s : String) : String :=
  (dropLeading (dropLeading s.data.reverse).reverse).asString

/-- Go `%q` formatting of a string (`strconv.Quote`), modelled for the
printable ASCII range: wrap in double quotes, escaping `\` and `"`. -/
def goQuoteChar (c : Char) : List Char :=
  if c = '"' then ['\\', '"'] else if c = '\\' then ['\\', '\\'] else [c]

def goQuote (s : String) : String :=
  ("\"".data ++ (s.data.map goQuoteChar).flatten ++ "\"".data).asString

/-! ## `strconv` models: base-10 integer, unsigned and boolean parsing -/

def isDigitCh (c : Char) : Bool := 48 ≤ c.toNat && c.toNat ≤ 57

def digitsToNat : List Char → Nat → Nat
  | [], acc => acc
  | c :: cs, acc => digitsToNat cs (acc * 10 + (c.toNat - 48))

/-- The magnitude and sign of a base-10 numeral as `strconv.ParseInt` reads it:
an optional single `+`/`-`, then one or more ASCII digits, nothing else. -/
def readDecimal : List Char → Option (Bool × Nat)
  | [] => none
  | c :: cs =>
    let (neg, digits) : Bool × List Char :=
      if c = '-' then (true, cs) else if c = '+' then (false, cs) else (false, c :: cs)
    if digits.isEmpty then none
    else if digits.all isDigitCh then some (neg, digitsToNat digits 0) else none

/-- Go `strconv.ParseInt(s, 10, bits)`.  Error strings follow Go's
`*strconv.NumError` formatting with the given function name. -/
def goParseIntF (fn : String) (s : String) (bits : Nat) : Except String Int :=
  match readDecimal s.data with
  | none => .error ("strconv." ++ fn ++ ": parsing " ++ goQuote s ++ ": invalid syntax")
  | some (neg, mag) =>
    let v : Int := if neg then -(mag : Int) else (mag : Int)
    if v < -(2 ^ (bits - 1) : Int) || (2 ^ (bits - 1) : Int) - 1 < v then
      .error ("strconv." ++ fn ++ ": parsing " ++ goQuote s ++ ": value out of range")
    else .ok v

def goParseInt (s : String) (bits : Nat) : Except String Int := goParseIntF "ParseInt" s bits

/-- Go `strconv.Atoi`: `ParseInt(s, 10, 0)` on a 64-bit platform, with
`strconv.Atoi` as the function name in error strings. -/
def goAtoi (s : String) : Except String Int := goParseIntF "Atoi" s 64

/-- Go `strconv.ParseUint(s, 10, bits)`: no sign is permitted. -/
def goParseUint (s : String) (bits : Nat) : Except String Nat :=
  if s.data.isEmpty || !(s.data.all isDigitCh) then
    .error ("strconv.ParseUint: parsing " ++ goQuote s ++ ": invalid syntax")
  else
    let v := digitsToNat s.data 0
    if 2 ^ bits - 1 < v then
      .error ("strconv.ParseUint: parsing " ++ goQuote s ++ ": value out of range")
    else .ok v

/-- Go `strconv.ParseBool`: accepts exactly
`1, t, T, TRUE, true, True, 0, f, F, FALSE, false, False`. -/
def goParseBool (s : String) : Except String Bool :=
  if s = "1" || s = "t" || s = "T" || s = "TRUE" || s = "true" || s = "True" then .ok true
  else if s = "0" || s = "f" || s = "F" || s = "FALSE" || s = "false" || s = "False" then .ok false
  else .error ("strconv.ParseBool: parsing " ++ goQuote s ++ ": invalid syntax")

/-! ## The data model: Go type descriptors and runtime values

`Ty` is what the engine sees of a Go type through `reflect`: its kind, and
for a struct its printed name plus the field descriptors in declaration
order.  A field descriptor carries the field name, the raw struct-tag
key/value pairs, whether the field is settable (exported), and its type.
Only the kinds the library's converter table and setters handle are
modelled; the two float kinds are left out (floating point). -/

mutual
inductive Ty where
  | tInt | tInt8 | tInt16 | tInt32 | tInt64
  | tUint | tUint8 | tUint16 | tUint32 | tUint64
  | tBool | tString
  | tStruct (tyName : String) (fields : Fields)
  | tPtr (elem : Ty)
  | tSlice (elem : Ty)
  | tMap (key : Ty) (val : Ty)
  deriving DecidableEq
inductive Fields where
  | nil
  | cons (name : String) (tags : List (String × String)) (exported : Bool) (ty : Ty)
      (rest : Fields)
  deriving DecidableEq
end

/-- Go `reflect.Kind.String()` for the modelled kinds. -/
def kindStr : Ty → String
  | .tInt => "int" | .tInt8 => "int8" | .tInt16 => "int16"
  | .tInt32 => "int32" | .tInt64 => "int64"
  | .tUint => "uint" | .tUint8 => "uint8" | .tUint16 => "uint16"
  | .tUint32 => "uint32" | .tUint64 => "uint64"
  | .tBool => "bool" | .tString => "string"
  | .tStruct _ _ => "struct" | .tPtr _ => "ptr" | .tSlice _ => "slice" | .tMap _ _ => "map"

/-- Go `reflect.Type.String()` (`%s` on a type) for the modelled types. -/
def tyStr : Ty → String
  | .tStruct n _ => n
  | .tPtr e => "*" ++ tyStr e
  | .tSlice e => "[]" ++ tyStr e
  | .tMap k v => "map[" ++ tyStr k ++ "]" ++ tyStr v
  | t => kindStr t

/- Runtime values.  `vNil` is the nil pointer / nil slice / nil map; a
struct value lists its field values in declaration order; map entries are
kept in `SetMapIndex` insertion order. -/
mutual
inductive Value where
  | vInt (n : Int)
  | vUint (n : Nat)
  | vBool (b : Bool)
  | vStr (s : String)
  | vNil
  | vPtr (v : Value)
  | vStruct (fields : Values)
  | vSlice (elems : Values)
  | vMap (entries : VEntries)
  deriving DecidableEq
inductive Values where
  | nil
  | cons (v : Value) (rest : Values)
  deriving DecidableEq
inductive VEntries where
  | nil
  | cons (k : Value) (v : Value) (rest : VEntries)
  deriving DecidableEq
end

def listToValues : List Value → Values
  | [] => .nil
  | v :: vs => .cons v (listToValues vs)

/-- Go `reflect.Value.SetMapIndex`: insert or overwrite a key. -/
def mapPut : VEntries → Value → Value → VEntries
  | .nil, k, v => .cons k v .nil
  | .cons k0 v0 rest, k, v =>
    if k0 = k then .cons k v rest else .cons k0 v0 (mapPut rest k v)

/- Go `reflect.Value.IsZero` (the engine's `isZeroValue`): numeric and
string zero, false, nil pointer/slice/map, or a struct all of whose fields
are zero.  A non-nil pointer, slice or map is never zero. -/
mutual
def isZero : Value → Bool
  | .vInt n => n == 0
  | .vUint n => n == 0
  | .vBool b => b == false
  | .vStr s => s == ""
  | .vNil => true
  | .vPtr _ => false
  | .vStruct fs => allZero fs
  | .vSlice _ => false
  | .vMap _ => false
def allZero : Values → Bool
  | .nil => true
  | .cons v vs => isZero v && allZero vs
end

/- The zero value of a type (`reflect.New(t).Elem()`). -/
mutual
def zeroVal : Ty → Value
  | .tInt | .tInt8 | .tInt16 | .tInt32 | .tInt64 => .vInt 0
  | .tUint | .tUint8 | .tUint16 | .tUint32 | .tUint64 => .vUint 0
  | .tBool => .vBool false
  | .tString => .vStr ""
  | .tStruct _ fs => .vStruct (zeroFields fs)
  | .tPtr _ => .vNil
  | .tSlice _ => .vNil
  | .tMap _ _ => .vNil
def zeroFields : Fields → Values
  | .nil => .nil
  | .cons _ _ _ ty rest => .cons (zeroVal ty) (zeroFields rest)
end

/- Fuel bound derived from a type: strictly larger than the size of every
descriptor the engine can recurse into from that type, so the fuelled walk
below never exhausts its fuel on a call tree rooted at the type. -/
mutual
def tyFuel : Ty → Nat
  | .tStruct _ fs => fieldsFuel fs + 1
  | .tPtr e => tyFuel e + 1
  | .tSlice e => tyFuel e + 1
  | .tMap k v => tyFuel k + tyFuel v + 1
  | _ => 1
def fieldsFuel : Fields → Nat
  | .nil => 1
  | .cons _ _ _ ty rest => tyFuel ty + fieldsFuel rest + 1
end

/-! ## Tag lookup and the variant resolver -/

/-- Go `reflect.StructTag.Get`: the value for a tag key, `""` when absent. -/
def tagGet : List (String × String) → String → String
  | [], _ => ""
  | (k, v) :: rest, key => if k = key then v else tagGet rest key

/-- Model of `getTagValueForVariant`: with an empty variant use the default
`testfill` tag; otherwise prefer a non-empty `testfill_<variant>` tag and
fall back to the default tag. -/
def getTagValueForVariant (tags : List (String × String)) (variant : String) : String :=
  if variant = "" then tagGet tags "testfill"
  else
    let value := tagGet tags ("testfill_" ++ variant)
    if value ≠ "" then value else tagGet tags "testfill"

/-! ## The type converter (`typeConverters` / `convertStringToType`) -/

/-- Whether `typeConverters` has an entry for the kind. -/
def hasConverter : Ty → Bool
  | .tInt | .tInt8 | .tInt16 | .tInt32 | .tInt64 => true
  | .tUint | .tUint8 | .tUint16 | .tUint32 | .tUint64 => true
  | .tBool | .tString => true
  | _ => false

/-- The converter table itself: each entry parses with `strconv` exactly as
the Go map literal does (note `reflect.Int` parses with bit size 64). -/
def runConverter : Ty → String → Except String Value
  | .tString, s => .ok (.vStr s)
  | .tBool, s => (goParseBool s).map .vBool
  | .tInt, s => (goParseInt s 64).map .vInt
  | .tInt8, s => (goParseInt s 8).map .vInt
  | .tInt16, s => (goParseInt s 16).map .vInt
  | .tInt32, s => (goParseInt s 32).map .vInt
  | .tInt64, s => (goParseInt s 64).map .vInt
  | .tUint, s => (goParseUint s 64).map .vUint
  | .tUint8, s => (goParseUint s 8).map .vUint
  | .tUint16, s => (goParseUint s 16).map .vUint
  | .tUint32, s => (goParseUint s 32).map .vUint
  | .tUint64, s => (goParseUint s 64).map .vUint
  | _, _ => .error "no converter"

/-- Model of `convertStringToType`: missing converter yields the fixed unsupported-
parameter message; a parser failure is wrapped as
`cannot convert "<input>" to <kind>: <underlying error>`. -/
def convertStringToType (arg : String) (targetType : Ty) : Except String Value :=
  if hasConverter targetType then
    (runConverter targetType arg).mapError
      (fun e => "cannot convert " ++ goQuote arg ++ " to " ++ kindStr targetType ++ ": " ++ e)
  else
    .error ("unsupported parameter type " ++ kindStr targetType ++
      " for factory function arguments")

/-! ## Errors and panics

Go errors are their formatted text; a panic unwinding the stack is a
separate outcome that `fmt.Errorf` wrapping never touches; `fuelOut` is an
artefact of the fuelled model and is unreachable from the public entry
points, whose fuel is `tyFuel` of the input type. -/

inductive GoErr where
  | err (msg : String)
  | panic (msg : String)
  | fuelOut
  deriving DecidableEq

/-- Go `fmt.Errorf` wrapping (the `"<frame>: %w"` calls): prepends a frame to an error's text;
a propagating panic is not an error value and picks up no frames. -/
def wrapErr (frame : String) : GoErr → GoErr
  | .err m => .err (frame ++ m)
  | e => e

def errMap {α : Type} (f : GoErr → GoErr) : Except GoErr α → Except GoErr α
  | .ok a => .ok a
  | .error e => .error (f e)

/-- Lifts a plain (string) error into the engine's error type. -/
def liftErr {α : Type} : Except String α → Except GoErr α
  | .ok a => .ok a
  | .error m => .error (.err m)

/-! ## The factory registry (`factoryRegistry`, `RegisterFactory`) -/

/-- What a registered callable looks like through `reflect`: its declared
parameter types and the call itself, which yields the typed results of the
call or raises a panic. -/
inductive FacOut where
  | rets (results : List (Ty × Value))
  | panics (msg : String)
  deriving DecidableEq

structure FactoryEntry where
  paramTys : List Ty
  call : List Value → FacOut

/-- The process-wide registry, with `RegisterFactory`'s last-write-wins
lookup, plus the behaviour of the two library calls this embedding keeps
abstract: `json.Unmarshal` and `time.Parse` (their results only ever land
in fields that were zero, so every theorem below is insensitive to them). -/
structure Env where
  registry : List (String × FactoryEntry)
  jsonDec : Ty → String → Except String Value
  timeParse : String → Except String Value

def lookupFactory : List (String × FactoryEntry) → String → Option FactoryEntry
  | [], _ => none
  | (k, e) :: rest, name => if k = name then some e else lookupFactory rest name

/-- Model of `parseFactoryTag`: split on `:` into function name and positional args. -/
def parseFactoryTag (factoryTag : String) : String × List String :=
  match goSplit factoryTag ':' with
  | [] => ("", [])
  | name :: args => (name, args)

/-- Argument conversion loop of `prepareFactoryArgs`: convert each
positional string argument to the declared parameter type, wrapping a
conversion failure with the factory name and argument index. -/
def convFactoryArgs (factoryName : String) : Nat → List String → List Ty →
    Except GoErr (List Value)
  | _, [], _ => .ok []
  | _, _ :: _, [] => .ok []
  | i, a :: as, t :: ts =>
    match convertStringToType a t with
    | .error e =>
      .error (.err ("factory function " ++ factoryName ++ " argument " ++
        toString i ++ ": " ++ e))
    | .ok v => (convFactoryArgs factoryName (i + 1) as ts).map (v :: ·)

/-- Model of `prepareFactoryArgs` steps 2-3: arity check, then convert each
positional string argument to the declared parameter type. -/
def prepareFactoryArgs (args : List String) (paramTys : List Ty) (factoryName : String) :
    Except GoErr (List Value) :=
  if args.length ≠ paramTys.length then
    .error (.err ("factory function " ++ factoryName ++ " expects " ++
      toString paramTys.length ++ " arguments, got " ++ toString args.length))
  else convFactoryArgs factoryName 0 args paramTys

/-- Model of `callAndValidateFactory`: exactly one result, assignable to the field
type (assignability modelled as type equality). -/
def callAndValidateFactory (out : FacOut) (factoryName : String) (fieldType : Ty) :
    Except GoErr Value :=
  match out with
  | .panics m => .error (.panic m)
  | .rets results =>
    match results with
    | [(rty, rv)] =>
      if rty = fieldType then .ok rv
      else
        .error (.err ("factory function " ++ factoryName ++ " returns " ++ tyStr rty ++
          ", but field expects " ++ tyStr fieldType))
    | _ =>
      .error (.err ("factory function " ++ factoryName ++ " must return exactly one value"))

/-- Model of `callFactoryFunction`, including the deferred `recover` that converts
any panic raised during the call into a normal error. -/
def callFactoryFunction (env : Env) (fieldType : Ty) (factoryTag : String) :
    Except GoErr Value :=
  let body : Except GoErr Value :=
    let (factoryName, args) := parseFactoryTag factoryTag
    match lookupFactory env.registry factoryName with
    | none => .error (.err ("factory function " ++ factoryName ++ " not found"))
    | some entry =>
      match prepareFactoryArgs args entry.paramTys factoryName with
      | .error e => .error e
      | .ok callArgs => callAndValidateFactory (entry.call callArgs) factoryName fieldType
  match body with
  | .error (.panic m) => .error (.err ("factory function panicked: " ++ m))
  | r => r

/-- Model of `unmarshalJSON`: a pointer field decodes `null` to nil, otherwise the
text is decoded into a fresh pointee; non-pointer fields decode in place.
Decode failures carry the fixed `failed to unmarshal JSON: ` frame. -/
def unmarshalJSONModel (env : Env) (fieldType : Ty) (jsonData : String) :
    Except GoErr Value :=
  match fieldType with
  | .tPtr elem =>
    if jsonData = "null" then .ok .vNil
    else
      (liftErr ((env.jsonDec elem jsonData).mapError
        (fun m => "failed to unmarshal JSON: " ++ m))).map .vPtr
  | t =>
    liftErr ((env.jsonDec t jsonData).mapError (fun m => "failed to unmarshal JSON: " ++ m))

/-! ## Generic iteration helpers (the Go `for` loops over parsed parts) -/

/-- An indexed effectful map, left to right, aborting on the first error. -/
def mapIdxM {α β : Type} (f : Nat → α → Except GoErr β) : Nat → List α →
    Except GoErr (List β)
  | _, [] => .ok []
  | i, a :: rest =>
    match f i a with
    | .error e => .error e
    | .ok b =>
      match mapIdxM f (i + 1) rest with
      | .error e => .error e
      | .ok bs => .ok (b :: bs)

/-- The loop `for i := 0; i < n; i++` accumulating results, aborting on error. -/
def repeatIdxM {β : Type} (f : Nat → Except GoErr β) : Nat → Nat → Except GoErr (List β)
  | _, 0 => .ok []
  | i, n + 1 =>
    match f i with
    | .error e => .error e
    | .ok b =>
      match repeatIdxM f (i + 1) n with
      | .error e => .error e
      | .ok bs => .ok (b :: bs)

/-- A left fold over parsed pairs building up map entries, aborting on error. -/
def foldPairsM (step : VEntries → String → Except GoErr VEntries) :
    VEntries → List String → Except GoErr VEntries
  | m, [] => .ok m
  | m, p :: rest =>
    match step m p with
    | .error e => .error e
    | .ok m2 => foldPairsM step m2 rest

/-! ## The structure walker and setters

The recursive walk (`fillStructWithVariant`, `handleNestedFillWithVariant`,
`setFieldValue` and the collection setters) is fuelled: the fuel strictly
decreases on every nested call, and the public entry points run with
`tyFuel` of the input type, which exceeds the depth of any call chain the
type admits, so the `fuelOut` branch is unreachable from them. -/

mutual

def fillFields (env : Env) : Nat → Fields → Values → String → Except GoErr Values
  | 0, _, _, _ => .error .fuelOut
  | fuel + 1, fields, vals, variant =>
    match fields, vals with
    | .nil, vs => .ok vs
    | .cons _ _ _ _ _, .nil => .ok .nil
    | .cons name tags exported ty rest, .cons v vs =>
      match fillOneField env fuel name tags exported ty v variant with
      | .error e => .error e
      | .ok v2 =>
        match fillFields env fuel rest vs variant with
        | .error e => .error e
        | .ok vs2 => .ok (.cons v2 vs2)

def fillOneField (env : Env) :
    Nat → String → List (String × String) → Bool → Ty → Value → String →
    Except GoErr Value
  | 0, _, _, _, _, _, _ => .error .fuelOut
  | fuel + 1, name, tags, exported, ty, v, variant =>
    if exported = false then .ok v
    else
      let tagValue := getTagValueForVariant tags variant
      if tagValue = "fill" then handleNestedFillWithVariant env fuel name ty v variant
      else if tagValue = "" then .ok v
      else if isZero v = false then .ok v
      else
        errMap (wrapErr ("testfill: failed to set field " ++ name ++ ": "))
          (setFieldValue env fuel ty tagValue)

def handleNestedFillWithVariant (env : Env) :
    Nat → String → Ty → Value → String → Except GoErr Value
  | 0, _, _, _, _ => .error .fuelOut
  | fuel + 1, name, ty, v, variant =>
    match ty, v with
    | .tStruct _ fs, .vStruct vs =>
      errMap (wrapErr ("testfill: failed to fill nested struct " ++ name ++ ": "))
        ((fillFields env fuel fs vs variant).map .vStruct)
    | .tPtr (.tStruct _ fs), .vNil =>
      errMap (wrapErr ("testfill: failed to fill nested struct pointer " ++ name ++ ": "))
        ((fillFields env fuel fs (zeroFields fs) variant).map (fun ws => .vPtr (.vStruct ws)))
    | .tPtr (.tStruct _ fs), .vPtr (.vStruct ws) =>
      errMap (wrapErr ("testfill: failed to fill nested struct pointer " ++ name ++ ": "))
        ((fillFields env fuel fs ws variant).map (fun ws2 => .vPtr (.vStruct ws2)))
    | _, w => .ok w

def setFieldValue (env : Env) : Nat → Ty → String → Except GoErr Value
  | 0, _, _ => .error .fuelOut
  | fuel + 1, fieldType, tag =>
    if goStartsWith tag "unmarshal:" then
      unmarshalJSONModel env fieldType (goStripPre tag "unmarshal:")
    else if goStartsWith tag "factory:" then
      callFactoryFunction env fieldType (goStripPre tag "factory:")
    else
      match fieldType with
      | .tSlice elem => setSliceValue env fuel elem tag
      | .tMap keyType valueType => setMapValue env fuel keyType valueType tag
      | .tPtr elem => (setFieldValue env fuel elem tag).map .vPtr
      | .tStruct nm fs =>
        if nm = "time.Time" then liftErr (env.timeParse tag)
        else .error (.err ("unsupported struct type " ++ tyStr (.tStruct nm fs)))
      | t => liftErr (convertStringToType tag t)

def setSliceValue (env : Env) : Nat → Ty → String → Except GoErr Value
  | 0, _, _ => .error .fuelOut
  | fuel + 1, elemType, tag =>
    match elemType with
    | .tStruct _ fs =>
      if goStartsWith tag "fill:" then
        match goAtoi (goStripPre tag "fill:") with
        | .error _ => .error (.err ("invalid slice count format: " ++ tag))
        | .ok count =>
          if count < 0 then .error (.panic "reflect.MakeSlice: negative len")
          else
            (repeatIdxM (fun i =>
                errMap (wrapErr ("failed to fill slice element " ++ toString i ++ ": "))
                  ((fillFields env fuel fs (zeroFields fs) "").map Value.vStruct))
              0 count.toNat).map (fun ws => .vSlice (listToValues ws))
      else if goStartsWith tag "variants:" then
        let variants := (goSplit (goStripPre tag "variants:") ',').map goTrimSpace
        (mapIdxM (fun i nm =>
            errMap (wrapErr ("failed to fill slice element " ++ toString i ++
                " with variant " ++ nm ++ ": "))
              ((fillFields env fuel fs (zeroFields fs) nm).map Value.vStruct))
          0 variants).map (fun ws => .vSlice (listToValues ws))
      else .error (.err ("unsupported slice element type " ++ kindStr elemType))
    | elem =>
      let parts := goSplit tag ','
      (parts.mapM (fun part =>
          match convertStringToType (goTrimSpace part) elem with
          | .ok w => Except.ok w
          | .error _ =>
            Except.error (GoErr.err ("unsupported slice element type " ++ kindStr elem)))).map
        (fun ws => .vSlice (listToValues ws))

def setMapValue (env : Env) : Nat → Ty → Ty → String → Except GoErr Value
  | 0, _, _, _ => .error .fuelOut
  | fuel + 1, keyType, valueType, tag =>
    match valueType with
    | .tStruct _ fs =>
      if keyType ≠ .tString then
        .error (.err ("unsupported map type " ++ kindStr keyType ++ " -> " ++
          kindStr valueType))
      else if goStartsWith tag "variants:" then
        let items := (goSplit (goStripPre tag "variants:") ',').map goTrimSpace
        (foldPairsM (fun m item =>
            match goSplit item '=' with
            | [k0, v0] =>
              let keyStr := goTrimSpace k0
              let variant := goTrimSpace v0
              (errMap (wrapErr ("failed to fill map value for key " ++ keyStr ++
                  " with variant " ++ variant ++ ": "))
                (fillFields env fuel fs (zeroFields fs) variant)).map
                (fun ws => mapPut m (.vStr keyStr) (.vStruct ws))
            | _ =>
              .error (.err ("invalid key=variant format: " ++ item ++
                " (expected format: key=variant)")))
          .nil items).map .vMap
      else
        let pairs := goSplit tag ','
        (foldPairsM (fun m pair =>
            match goSplit (goTrimSpace pair) ':' with
            | [k0, v0] =>
              let keyStr := goTrimSpace k0
              let valueStr := goTrimSpace v0
              if valueStr = "fill" then
                (errMap (wrapErr ("failed to fill map value for key " ++ keyStr ++ ": "))
                  (fillFields env fuel fs (zeroFields fs) "")).map
                  (fun ws => mapPut m (.vStr keyStr) (.vStruct ws))
              else
                (errMap (wrapErr ("failed to fill map value for key " ++ keyStr ++
                    " with variant " ++ valueStr ++ ": "))
                  (fillFields env fuel fs (zeroFields fs) valueStr)).map
                  (fun ws => mapPut m (.vStr keyStr) (.vStruct ws))
            | _ => .error (.err ("invalid map format: " ++ pair)))
          .nil pairs).map .vMap
    | vt =>
      let pairs := goSplit tag ','
      (foldPairsM (fun m pair =>
          match goSplit (goTrimSpace pair) ':' with
          | [k0, v0] =>
            match convertStringToType (goTrimSpace k0) keyType with
            | .error _ =>
              .error (.err ("unsupported map type " ++ kindStr keyType ++ " -> " ++
                kindStr vt))
            | .ok kv =>
              match convertStringToType (goTrimSpace v0) vt with
              | .error _ =>
                .error (.err ("unsupported map type " ++ kindStr keyType ++ " -> " ++
                  kindStr vt))
              | .ok vv => .ok (mapPut m kv vv)
          | _ => .error (.err ("invalid map format: " ++ pair)))
        .nil pairs).map .vMap

end

/-! ## The public entry points -/

/-- What a `Fill`/`FillWithVariant` call returns: the `(T, error)` pair,
with a separate outcome for a panic unwinding out of the call (the process
aborts, nothing is returned) and for the model-only fuel exhaustion. -/
inductive FillResult where
  | ok (v : Value)
  | fail (v : Value) (msg : String)
  | panicked (msg : String)
  | fuelExhausted
  deriving DecidableEq

/-- Model of `fillStruct`: the default-variant walk. -/
def fillStruct (env : Env) (fuel : Nat) (fields : Fields) (vals : Values) :
    Except GoErr Values :=
  fillFields env fuel fields vals ""

/-- Model of `FillWithVariant`: reject non-struct inputs, copy, walk, and on any
error return the type's zero value alongside the error. -/
def FillWithVariant (env : Env) (inputType : Ty) (input : Value) (variant : String) :
    FillResult :=
  match inputType with
  | .tStruct nm fs =>
    match input with
    | .vStruct vs =>
      match fillFields env (tyFuel (.tStruct nm fs)) fs vs variant with
      | .ok ws => .ok (.vStruct ws)
      | .error (.err m) => .fail (zeroVal (.tStruct nm fs)) m
      | .error (.panic m) => .panicked m
      | .error .fuelOut => .fuelExhausted
    | v => .ok v
  | t => .fail (zeroVal t) ("testfill: expected struct, got " ++ tyStr t)

/-- Model of `Fill`: like `FillWithVariant` but walking with `fillStruct`, i.e. the
default (empty) variant. -/
def Fill (env : Env) (inputType : Ty) (input : Value) : FillResult :=
  match inputType with
  | .tStruct nm fs =>
    match input with
    | .vStruct vs =>
      match fillStruct env (tyFuel (.tStruct nm fs)) fs vs with
      | .ok ws => .ok (.vStruct ws)
      | .error (.err m) => .fail (zeroVal (.tStruct nm fs)) m
      | .error (.panic m) => .panicked m
      | .error .fuelOut => .fuelExhausted
    | v => .ok v
  | t => .fail (zeroVal t) ("testfill: expected struct, got " ++ tyStr t)

/-! ## The write-only-into-zero invariant, as a relation on values

`preserves v w` says `w` agrees with `v` on every component of `v` that is
not a zero value: a non-zero scalar, slice, map or whole value is
unchanged, while a (possibly non-zero) struct or pointed-to struct may
have had its zero fields filled, field by field. -/

mutual
def preserves : Value → Value → Bool
  | v, w =>
    if isZero v then true
    else
      match v, w with
      | .vStruct fs, .vStruct gs => preservesVs fs gs
      | .vPtr a, .vPtr b => preserves a b
      | a, b => a == b
def preservesVs : Values → Values → Bool
  | .nil, .nil => true
  | .cons a as, .cons b bs => preserves a b && preservesVs as bs
  | _, _ => false
end

/-- The hypothesis of the zero-fill completeness property, per field: an
unexported or untagged field keeps its value; a tagged field is of a
converter-backed (primitive) kind, its default tag is a plain literal that
converts successfully, the field starts at zero, and its expected output is
the converted value. -/
def litFields : Fields → Values → Values → Bool
  | .nil, .nil, .nil => true
  | .cons _ tags exp ty rest, .cons v vs, .cons w ws =>
    (if exp = false then w == v
     else
       let t := tagGet tags "testfill"
       if t = "" then w == v
       else
         hasConverter ty && !(t == "fill") && !(goStartsWith t "unmarshal:") &&
           !(goStartsWith t "factory:") && isZero v && (convertStringToType t ty == .ok w))
    && litFields rest vs ws
  | _, _, _ => false

/-! ## Concrete fixtures used by witnesses and counterexamples

These mirror structures from the repository's own test-suite. -/

/-- An environment with an empty factory registry. -/
def envA : Env :=
  { registry := [],
    jsonDec := fun _ _ => .error "json: unmodelled",
    timeParse := fun _ => .error "time: unmodelled" }

/-- The factory entry of the test-suite's always-panicking factory. -/
def boomEntry : FactoryEntry :=
  { paramTys := [], call := fun _ => .panics "this factory always panics" }

/-- An environment with the always-panicking factory registered. -/
def envPanic : Env :=
  { registry := [("Boom", boomEntry)],
    jsonDec := fun _ _ => .error "json: unmodelled",
    timeParse := fun _ => .error "time: unmodelled" }

/-- The fields of the test-suite's `Bar`: an int field tagged `42` and a
string field tagged `Olivie Smith`. -/
def barFields : Fields :=
  .cons "Integer" [("testfill", "42")] true .tInt
    (.cons "String" [("testfill", "Olivie Smith")] true .tString .nil)

/-- The test-suite's `Bar` struct type. -/
def tyBar : Ty := .tStruct "testfill.Bar" barFields

/-- The `Bar` values when fully filled from zero. -/
def barFilledVals : Values := .cons (.vInt 42) (.cons (.vStr "Olivie Smith") .nil)

/-- A `Bar` value with the integer field pre-set to `7`. -/
def barAt7 : Value := .vStruct (.cons (.vInt 7) (.cons (.vStr "") .nil))

/-- The `Bar` value after filling `barAt7`: the 7 is kept, the string is filled. -/
def barAt7Filled : Value := .vStruct (.cons (.vInt 7) (.cons (.vStr "Olivie Smith") .nil))

/-- The fields of the test-suite's variant-carrying `User`: `Name` tagged
`John` with an `admin` variant `Jane`, `Age` tagged `25` with an `admin`
variant `30`. -/
def userFields : Fields :=
  .cons "Name" [("testfill", "John"), ("testfill_admin", "Jane")] true .tString
    (.cons "Age" [("testfill", "25"), ("testfill_admin", "30")] true .tInt .nil)

/-- The test-suite's `User` struct type. -/
def tyUser : Ty := .tStruct "User" userFields

/-- The test-suite's `UserList` whose slice field carries a
`variants:default,admin` directive. -/
def tyUserList : Ty :=
  .tStruct "UserList"
    (.cons "Users" [("testfill", "variants:default,admin")] true (.tSlice tyUser) .nil)

/-- A `UserList` supplied with a pre-existing one-element slice whose
element has a non-zero `Name` and a zero `Age` (test
`preserves existing non-zero values`). -/
def userListPre : Value :=
  .vStruct (.cons (.vSlice (.cons
    (.vStruct (.cons (.vStr "CustomName") (.cons (.vInt 0) .nil))) .nil)) .nil)

/-- What `userListPre` would become were the pre-existing slice traversed
element by element with zero sub-fields filled (`Age` set to 25). -/
def userListPreFilled : Value :=
  .vStruct (.cons (.vSlice (.cons
    (.vStruct (.cons (.vStr "CustomName") (.cons (.vInt 25) .nil))) .nil)) .nil)

/-- A `UserList` whose slice field carries the empty variant list
directive `variants:`. -/
def tyUserListEmptyVar : Ty :=
  .tStruct "UserList" (.cons "Users" [("testfill", "variants:")] true (.tSlice tyUser) .nil)

/-- A struct whose slice-of-struct field carries `fill:-1`. -/
def tyNegCount : Ty :=
  .tStruct "S" (.cons "Value" [("testfill", "fill:-1")] true (.tSlice tyBar) .nil)

/-- The test-suite's struct with a field driven by the panicking factory. -/
def tyPanicStruct : Ty :=
  .tStruct "S" (.cons "CustomVOWithPanic" [("testfill", "factory:Boom")] true .tString .nil)

/-- A struct whose slice-of-struct field carries the unparseable count
`fill:not_a_number` (from the repository test `invalid struct slice count`). -/
def tyBadCount : Ty :=
  .tStruct "InvalidStructSlice"
    (.cons "Value" [("testfill", "fill:not_a_number")] true (.tSlice tyBar) .nil)

/-- Effectful map, left to right, aborting on the first error (index-free
companion of `mapIdxM`, used to state per-element success hypotheses). -/
def mapExc {α β : Type} (g : α → Except GoErr β) : List α → Except GoErr (List β)
  | [] => .ok []
  | a :: rest =>
    match g a with
    | .error e => .error e
    | .ok b =>
      match mapExc g rest with
      | .error e => .error e
      | .ok bs => .ok (b :: bs)

end Testfill


namespace Testfill

/-! ## Helper lemmas -/

theorem errMap_eq_ok {α : Type} (f : GoErr → GoErr) (x : Except GoErr α) (a : α) :
    errMap f x = .ok a ↔ x = .ok a := by
  cases x <;> simp [errMap]

theorem liftErr_eq_ok {α : Type} (x : Except String α) (a : α) :
    liftErr x = .ok a ↔ x = .ok a := by
  cases x <;> simp [liftErr]

theorem exceptMap_eq_ok {ε α β : Type} (g : α → β) (x : Except ε α) (b : β) :
    x.map g = .ok b ↔ ∃ a, x = .ok a ∧ g a = b := by
  cases x <;> simp [Except.map]

theorem preserves_of_isZero {v : Value} (w : Value) (h : isZero v = true) :
    preserves v w = true := by
  rw [preserves.eq_def]; simp [h]

mutual
theorem preserves_refl : ∀ (v : Value), preserves v v = true
  | .vInt n => by simp [preserves, isZero]
  | .vUint n => by simp [preserves, isZero]
  | .vBool b => by simp [preserves, isZero]
  | .vStr s => by simp [preserves, isZero]
  | .vNil => by simp [preserves, isZero]
  | .vPtr a => by
      have h := preserves_refl a
      simp [preserves, isZero, h]
  | .vStruct fs => by
      have h := preservesVs_refl fs
      simp [preserves, isZero, h]
  | .vSlice es => by simp [preserves, isZero]
  | .vMap ents => by simp [preserves, isZero]
theorem preservesVs_refl : ∀ (vs : Values), preservesVs vs vs = true
  | .nil => by simp [preservesVs]
  | .cons a as => by
      have h1 := preserves_refl a
      have h2 := preservesVs_refl as
      simp [preservesVs, h1, h2]
end

/-- Claim C10: the default fill is the empty-variant instance of the
variant-aware walk: `Fill` returns exactly the same value-and-error pair as
`FillWithVariant` with the empty variant. -/
theorem claimC10_fill_is_default_variant (env : Env) (t : Ty) (v : Value) :
    Fill env t v = FillWithVariant env t v "" := rfl

/-- Claim C9: when the underlying converter for a supported kind fails, the
type converter's error text is exactly
`cannot convert "<input>" to <kind>: <underlying parser error>`; a kind
without a converter yields
`unsupported parameter type <kind> for factory function arguments`. -/
theorem claimC9_converter_error_format (s : String) (t : Ty) :
    (∀ m, hasConverter t = true → runConverter t s = .error m →
      convertStringToType s t =
        .error ("cannot convert " ++ goQuote s ++ " to " ++ kindStr t ++ ": " ++ m)) ∧
    (hasConverter t = false →
      convertStringToType s t =
        .error ("unsupported parameter type " ++ kindStr t ++
          " for factory function arguments")) := by
  constructor
  · intro m hc hr
    simp [convertStringToType, hc, hr, Except.mapError]
  · intro hc
    simp [convertStringToType, hc]

/-- Witness for C9 at concrete inputs: `"abc"` against `int`, and a slice
kind, which has no converter. -/
theorem claimC9_witness :
    convertStringToType "abc" .tInt =
      .error ("cannot convert " ++ goQuote "abc" ++ " to " ++ kindStr .tInt ++ ": " ++
        "strconv.ParseInt: parsing \"abc\": invalid syntax") ∧
    convertStringToType "5" (.tSlice .tInt) =
      .error ("unsupported parameter type " ++ kindStr (.tSlice .tInt) ++
        " for factory function arguments") :=
  ⟨(claimC9_converter_error_format "abc" .tInt).1 _ (by decide) (by decide),
   (claimC9_converter_error_format "5" (.tSlice .tInt)).2 (by decide)⟩

/-- Claim C6: the variant resolver. With an empty variant the default tag is
used directly; a field lacking a non-empty `testfill_<variant>` tag
resolves to its default tag; and, when that default tag is not the nested
`fill` marker, the walker's treatment of the field under the variant is
exactly its treatment under the default, so partial coverage degrades to
defaults without error. -/
theorem claimC6_variant_fallback :
    (∀ tags, getTagValueForVariant tags "" = tagGet tags "testfill") ∧
    (∀ tags variant, tagGet tags ("testfill_" ++ variant) = "" →
      getTagValueForVariant tags variant = tagGet tags "testfill") ∧
    (∀ (env : Env) fuel n tags exp ty v variant,
      tagGet tags ("testfill_" ++ variant) = "" →
      tagGet tags "testfill" ≠ "fill" →
      fillOneField env fuel n tags exp ty v variant =
        fillOneField env fuel n tags exp ty v "") := by
  refine ⟨?_, ?_, ?_⟩
  · intro tags; simp [getTagValueForVariant]
  · intro tags variant h
    by_cases hv : variant = ""
    · simp [getTagValueForVariant, hv]
    · simp [getTagValueForVariant, hv, h]
  · intro env fuel n tags exp ty v variant h hf
    have h1 : getTagValueForVariant tags variant = tagGet tags "testfill" := by
      by_cases hv : variant = ""
      · simp [getTagValueForVariant, hv]
      · simp [getTagValueForVariant, hv, h]
    have h2 : getTagValueForVariant tags "" = tagGet tags "testfill" := by
      simp [getTagValueForVariant]
    cases fuel with
    | zero => rfl
    | succ fuel =>
      simp only [fillOneField, h1, h2]
      rw [if_neg hf, if_neg hf]

/-- Witness for C6: a `guest` variant request on tags declaring only the
default and an `admin` variant falls back to the default everywhere. -/
theorem claimC6_witness :
    getTagValueForVariant [("testfill", "John"), ("testfill_admin", "Jane")] "" = "John" ∧
    getTagValueForVariant [("testfill", "John"), ("testfill_admin", "Jane")] "guest" = "John" ∧
    fillOneField envA 5 "Name" [("testfill", "John"), ("testfill_admin", "Jane")] true
        .tString (.vStr "") "guest" =
      fillOneField envA 5 "Name" [("testfill", "John"), ("testfill_admin", "Jane")] true
        .tString (.vStr "") "" :=
  ⟨claimC6_variant_fallback.1 [("testfill", "John"), ("testfill_admin", "Jane")],
   claimC6_variant_fallback.2.1 _ "guest" (by decide),
   claimC6_variant_fallback.2.2 envA 5 "Name" _ true .tString (.vStr "") "guest"
     (by decide) (by decide)⟩

end Testfill

namespace Testfill

theorem handleNested_slice (env : Env) (fuel : Nat) (n : String) (ty : Ty)
    (variant : String) (es : Values) :
    handleNestedFillWithVariant env (fuel + 1) n ty (.vSlice es) variant = .ok (.vSlice es) := by
  rw [handleNestedFillWithVariant.eq_def]
  split <;> (try split) <;> simp_all

theorem handleNested_map (env : Env) (fuel : Nat) (n : String) (ty : Ty)
    (variant : String) (ents : VEntries) :
    handleNestedFillWithVariant env (fuel + 1) n ty (.vMap ents) variant = .ok (.vMap ents) := by
  rw [handleNestedFillWithVariant.eq_def]
  split <;> (try split) <;> simp_all

theorem fillOneField_slice_untouched (env : Env) (fuel : Nat) (n : String)
    (tags : List (String × String)) (exp : Bool) (ty : Ty) (es : Values) (variant : String) :
    fillOneField env (fuel + 1 + 1) n tags exp ty (.vSlice es) variant = .ok (.vSlice es) := by
  rw [fillOneField.eq_def]
  by_cases hexp : exp = false
  · simp [hexp]
  · by_cases hf : getTagValueForVariant tags variant = "fill"
    · simp [hexp, hf, handleNested_slice]
    · by_cases he : getTagValueForVariant tags variant = ""
      · simp [hexp, hf, he]
      · simp [hexp, hf, he, isZero]

theorem fillOneField_map_untouched (env : Env) (fuel : Nat) (n : String)
    (tags : List (String × String)) (exp : Bool) (ty : Ty) (ents : VEntries)
    (variant : String) :
    fillOneField env (fuel + 1 + 1) n tags exp ty (.vMap ents) variant = .ok (.vMap ents) := by
  rw [fillOneField.eq_def]
  by_cases hexp : exp = false
  · simp [hexp]
  · by_cases hf : getTagValueForVariant tags variant = "fill"
    · simp [hexp, hf, handleNested_map]
    · by_cases he : getTagValueForVariant tags variant = ""
      · simp [hexp, hf, he]
      · simp [hexp, hf, he, isZero]

/-- Claim C3 (counterexample): the claimed exception does not exist.  On the
repository's own `preserves existing non-zero values` fixture — a
pre-existing one-element slice of `User` under a `variants:default,admin`
directive — `Fill` returns the input verbatim: the element's zero `Age`
sub-field stays `0`, and is not filled to `25` as the claimed
element-by-element traversal would produce. -/
theorem claimC3_counterexample :
    Fill envA tyUserList userListPre = .ok userListPre ∧ userListPre ≠ userListPreFilled := by
  constructor <;> decide

/-- Claim C3 (amended): collection atomicity is unconditional.  A field
currently holding any non-nil slice or map value — pre-populated elements
included — is returned unchanged by the walker whatever its directive is,
with no `variants:` exception: even then the existing elements' zero
sub-fields are not filled. -/
theorem claimC3_collections_atomic (env : Env) (fuel : Nat) (n : String)
    (tags : List (String × String)) (exp : Bool) (ty : Ty) (variant : String)
    (es : Values) (ents : VEntries) :
    fillOneField env (fuel + 1 + 1) n tags exp ty (.vSlice es) variant = .ok (.vSlice es) ∧
    fillOneField env (fuel + 1 + 1) n tags exp ty (.vMap ents) variant = .ok (.vMap ents) :=
  ⟨fillOneField_slice_untouched env fuel n tags exp ty es variant,
   fillOneField_map_untouched env fuel n tags exp ty ents variant⟩

theorem fillWithVariant_fail_zero (env : Env) (t : Ty) (v : Value) (variant : String)
    (out : Value) (m : String) (h : FillWithVariant env t v variant = .fail out m) :
    out = zeroVal t := by
  cases t <;> cases v <;> simp only [FillWithVariant] at h <;>
    (try split at h) <;> simp_all

theorem fill_fail_zero (env : Env) (t : Ty) (v : Value)
    (out : Value) (m : String) (h : Fill env t v = .fail out m) :
    out = zeroVal t := by
  cases t <;> cases v <;> simp only [Fill, fillStruct] at h <;>
    (try split at h) <;> simp_all

/-- Claim C4 (counterexample): not every error's text is chained under an
outermost `testfill: failed to set field X` frame.  A non-struct input
fails with `testfill: expected struct, got int`, whose text does not start
with the set-field frame at all. -/
theorem claimC4_counterexample :
    FillWithVariant envA .tInt (.vInt 0) "" =
      .fail (.vInt 0) "testfill: expected struct, got int" ∧
    goStartsWith "testfill: expected struct, got int" "testfill: failed to set field" = false := by
  constructor <;> decide

/-- Claim C4 (amended): whenever `Fill` or `FillWithVariant` returns a
non-nil error the structure value it returns is the type's zero value,
never a partially mutated copy; and an error arising from a field setter
carries the chained text `testfill: failed to set field <X>: <inner>`,
outermost frame first, innermost message last.  (Other error classes — the
non-struct rejection and nested-struct wrapping — carry their own
outermost frames.) -/
theorem claimC4_zero_on_error :
    (∀ (env : Env) t v variant out m,
      FillWithVariant env t v variant = .fail out m → out = zeroVal t) ∧
    (∀ (env : Env) t v out m, Fill env t v = .fail out m → out = zeroVal t) ∧
    (∀ (env : Env) fuel n tags ty v variant m,
      getTagValueForVariant tags variant ≠ "fill" →
      getTagValueForVariant tags variant ≠ "" →
      isZero v = true →
      setFieldValue env fuel ty (getTagValueForVariant tags variant) = .error (.err m) →
      fillOneField env (fuel + 1) n tags true ty v variant =
        .error (.err (("testfill: failed to set field " ++ n ++ ": ") ++ m))) := by
  refine ⟨fillWithVariant_fail_zero, fill_fail_zero, ?_⟩
  intro env fuel n tags ty v variant m hf he hz hs
  rw [fillOneField.eq_def]
  simp [hf, he, hz, hs, errMap, wrapErr]

/-- Witness for C4 on the repository's `invalid struct slice count`
fixture: the returned value is the zero value, and the error text is the
set-field frame chained onto the inner format error. -/
theorem claimC4_witness :
    (Value.vStruct (.cons .vNil .nil)) = zeroVal tyBadCount ∧
    fillOneField envA (3 + 1) "Value" [("testfill", "fill:not_a_number")] true
        (.tSlice tyBar) .vNil "" =
      .error (.err (("testfill: failed to set field " ++ "Value" ++ ": ") ++
        "invalid slice count format: fill:not_a_number")) :=
  ⟨claimC4_zero_on_error.1 envA tyBadCount (zeroVal tyBadCount) ""
     (.vStruct (.cons .vNil .nil))
     "testfill: failed to set field Value: invalid slice count format: fill:not_a_number"
     (by decide),
   claimC4_zero_on_error.2.2 envA 3 "Value" [("testfill", "fill:not_a_number")]
     (.tSlice tyBar) .vNil "" "invalid slice count format: fill:not_a_number"
     (by decide) (by decide) (by decide) (by decide)⟩

end Testfill

namespace Testfill

theorem repeatIdxM_const {β : Type} (f : Nat → Except GoErr β) (b : β)
    (hf : ∀ i, f i = .ok b) : ∀ n i, repeatIdxM f i n = .ok (List.replicate n b) := by
  intro n
  induction n with
  | zero => intro i; simp [repeatIdxM]
  | succ n ih => intro i; simp [repeatIdxM, hf, ih, List.replicate]

theorem mapIdxM_of_mapExc (g : String → Except GoErr Values)
    (wrapf : Nat → String → GoErr → GoErr) (names : List String) :
    ∀ i ws, mapExc g names = .ok ws →
      mapIdxM (fun j nm => errMap (wrapf j nm) ((g nm).map Value.vStruct)) i names =
        .ok (ws.map Value.vStruct) := by
  induction names with
  | nil =>
    intro i ws h
    simp [mapExc] at h
    simp [mapIdxM, ← h]
  | cons nm rest ih =>
    intro i ws h
    simp only [mapExc] at h
    cases hg : g nm with
    | error e => rw [hg] at h; simp at h
    | ok v =>
      rw [hg] at h
      cases hr : mapExc g rest with
      | error e => rw [hr] at h; simp at h
      | ok vs =>
        rw [hr] at h
        simp at h
        subst h
        simp only [mapIdxM]
        rw [ih (i + 1) vs hr]
        simp [hg, errMap, Except.map]

/-- Claim C7 (amended): for `fill:<N>` on a zero slice-of-structs field, a
count that parses (`strconv.Atoi`, sign permitted) as a non-negative `N`
produces exactly `N` freshly zero-initialized, fully default-variant-filled
structure instances; a count that does not parse yields the format error
`invalid slice count format: <tag>` naming the directive text; but a count
that parses to a *negative* integer is not rejected with a format error —
it reaches `reflect.MakeSlice`, which panics. -/
theorem claimC7_fill_count (env : Env) (fuel : Nat) (nm : String) (fs : Fields)
    (tag countStr e : String) (w : Values) (c : Int) :
    (goStartsWith tag "fill:" = true → goStripPre tag "fill:" = countStr →
      goAtoi countStr = .ok c → 0 ≤ c →
      fillFields env fuel fs (zeroFields fs) "" = .ok w →
      setSliceValue env (fuel + 1) (.tStruct nm fs) tag =
        .ok (.vSlice (listToValues (List.replicate c.toNat (.vStruct w))))) ∧
    (goStartsWith tag "fill:" = true → goStripPre tag "fill:" = countStr →
      goAtoi countStr = .error e →
      setSliceValue env (fuel + 1) (.tStruct nm fs) tag =
        .error (.err ("invalid slice count format: " ++ tag))) ∧
    (goStartsWith tag "fill:" = true → goStripPre tag "fill:" = countStr →
      goAtoi countStr = .ok c → c < 0 →
      setSliceValue env (fuel + 1) (.tStruct nm fs) tag =
        .error (.panic "reflect.MakeSlice: negative len")) := by
  refine ⟨?_, ?_, ?_⟩
  · intro h1 h2 h3 h4 h5
    have hneg : ¬ (c < 0) := by omega
    rw [setSliceValue.eq_def]
    simp only [h1, h2, h3, if_true, hneg, if_false]
    rw [repeatIdxM_const _ (Value.vStruct w) (fun i => by simp [h5, errMap, Except.map])]
    simp [Except.map]
  · intro h1 h2 h3
    rw [setSliceValue.eq_def]
    simp [h1, h2, h3]
  · intro h1 h2 h3 h4
    rw [setSliceValue.eq_def]
    simp [h1, h2, h3, h4]

/-- Witness for C7: `fill:2` over the `Bar` element type produces two
identical default-filled `Bar` values. -/
theorem claimC7_witness :
    goStartsWith "fill:2" "fill:" = true ∧
    setSliceValue envA (5 + 1) (.tStruct "testfill.Bar" barFields) "fill:2" =
      .ok (.vSlice (listToValues (List.replicate (Int.toNat 2) (.vStruct barFilledVals)))) :=
  ⟨by decide,
   (claimC7_fill_count envA 5 "testfill.Bar" barFields "fill:2" "2" "" barFilledVals 2).1
     (by decide) (by decide) (by decide) (by decide) (by decide)⟩

/-- Claim C7 (counterexample): the claim requires an invalid (negative)
count to yield a format error naming the directive, but `fill:-1` parses
under `strconv.Atoi` and instead panics in `reflect.MakeSlice`, aborting
the fill abnormally with no error value at all. -/
theorem claimC7_counterexample :
    Fill envA tyNegCount (zeroVal tyNegCount) = .panicked "reflect.MakeSlice: negative len" ∧
    goAtoi "-1" = .ok (-1) := by
  constructor <;> decide

end Testfill

namespace Testfill

/-- Claim C8 (amended): a `variants:<list>` directive on a zero
slice-of-structs field produces one instance per listed variant name, in
left-to-right order, names trimmed of surrounding whitespace, each filled
through variant resolution with that name — but the empty list (tag exactly
`variants:`) yields ONE element, not zero: Go's `Split` of the empty
remainder yields one empty name, which fills with the default tags. -/
theorem claimC8_variants_slice (env : Env) (fuel : Nat) (nm : String) (fs : Fields)
    (tag rest : String) (ws : List Values) (w : Values) :
    (goStartsWith tag "fill:" = false → goStartsWith tag "variants:" = true →
      goStripPre tag "variants:" = rest →
      mapExc (fun v => fillFields env fuel fs (zeroFields fs) v)
          ((goSplit rest ',').map goTrimSpace) = .ok ws →
      setSliceValue env (fuel + 1) (.tStruct nm fs) tag =
        .ok (.vSlice (listToValues (ws.map Value.vStruct)))) ∧
    (fillFields env fuel fs (zeroFields fs) "" = .ok w →
      setSliceValue env (fuel + 1) (.tStruct nm fs) "variants:" =
        .ok (.vSlice (.cons (.vStruct w) .nil))) := by
  constructor
  · intro h1 h2 h3 h4
    rw [setSliceValue.eq_def]
    simp only [h1, h2, h3]
    rw [mapIdxM_of_mapExc _ _ _ 0 ws h4]
    simp [Except.map]
  · intro hw
    have e1 : goStartsWith "variants:" "fill:" = false := by decide
    have e2 : goStartsWith "variants:" "variants:" = true := by decide
    have e3 : (goSplit (goStripPre "variants:" "variants:") ',').map goTrimSpace = [""] := by
      decide
    have e4 : (List.nil : List Char).asString = "" := by decide
    have e5 : goTrimSpace "" = "" := by decide
    rw [setSliceValue.eq_def]
    simp [e1, e2, e3, e4, e5, mapIdxM, errMap, hw, Except.map, listToValues]

/-- Witness for C8: `variants:default,admin` over the two-variant `User`
produces `[{John,25},{Jane,30}]` in order. -/
theorem claimC8_witness :
    goStartsWith "variants:default,admin" "variants:" = true ∧
    setSliceValue envA (5 + 1) (.tStruct "User" userFields) "variants:default,admin" =
      .ok (.vSlice (listToValues
        ([Values.cons (.vStr "John") (.cons (.vInt 25) .nil),
          Values.cons (.vStr "Jane") (.cons (.vInt 30) .nil)].map Value.vStruct))) :=
  ⟨by decide,
   (claimC8_variants_slice envA 5 "User" userFields "variants:default,admin" "default,admin"
       [Values.cons (.vStr "John") (.cons (.vInt 25) .nil),
        Values.cons (.vStr "Jane") (.cons (.vInt 30) .nil)]
       (Values.cons (.vStr "John") (.cons (.vInt 25) .nil))).1
     (by decide) (by decide) (by decide) (by decide)⟩

/-- Claim C8 (counterexample): a tag of exactly `variants:` does not yield
zero elements — on the repository's own `empty variant list` fixture the
resulting slice has exactly one element, filled with the default tags. -/
theorem claimC8_counterexample :
    Fill envA tyUserListEmptyVar (zeroVal tyUserListEmptyVar) =
      .ok (.vStruct (.cons (.vSlice (.cons
        (.vStruct (.cons (.vStr "John") (.cons (.vInt 25) .nil))) .nil)) .nil)) ∧
    Values.cons (Value.vStruct (.cons (.vStr "John") (.cons (.vInt 25) .nil))) .nil ≠
      Values.nil := by
  constructor <;> decide

end Testfill

namespace Testfill

/-- Claim C5: a registered factory callable that panics during invocation is
intercepted by the deferred `recover`: the fill returns a normal error
(not an abnormal termination) whose text is
`factory function panicked: <fault message>` wrapped with the field name,
and the overall output is the input type's zero value. -/
theorem claimC5_factory_panic (env : Env) (nm fname : String)
    (tags : List (String × String)) (fty : Ty) (v : Value) (variant : String)
    (tag ftag name : String) (args : List String) (entry : FactoryEntry)
    (cargs : List Value) (m : String)
    (hres : getTagValueForVariant tags variant = tag)
    (hjs : goStartsWith tag "unmarshal:" = false)
    (hfac : goStartsWith tag "factory:" = true)
    (hnfill : tag ≠ "fill") (hne : tag ≠ "")
    (hstrip : goStripPre tag "factory:" = ftag)
    (hparse : parseFactoryTag ftag = (name, args))
    (hlook : lookupFactory env.registry name = some entry)
    (hprep : prepareFactoryArgs args entry.paramTys name = .ok cargs)
    (hcall : entry.call cargs = .panics m)
    (hz : isZero v = true) :
    FillWithVariant env (.tStruct nm (.cons fname tags true fty .nil))
        (.vStruct (.cons v .nil)) variant =
      .fail (zeroVal (.tStruct nm (.cons fname tags true fty .nil)))
        (("testfill: failed to set field " ++ fname ++ ": ") ++
          ("factory function panicked: " ++ m)) := by
  have hc : callFactoryFunction env fty ftag =
      .error (.err ("factory function panicked: " ++ m)) := by
    simp only [callFactoryFunction, hparse, hlook, hprep, hcall, callAndValidateFactory]
  have hsf : ∀ fuel, setFieldValue env (fuel + 1) fty tag =
      .error (.err ("factory function panicked: " ++ m)) := by
    intro fuel
    rw [setFieldValue.eq_def]
    simp [hjs, hfac, hstrip, hc]
  have hof : ∀ fuel, fillOneField env (fuel + 1 + 1) fname tags true fty v variant =
      .error (.err (("testfill: failed to set field " ++ fname ++ ": ") ++
        ("factory function panicked: " ++ m))) := by
    intro fuel
    rw [fillOneField.eq_def]
    simp [hres, hnfill, hne, hz, hsf, errMap, wrapErr]
  have hff : ∀ fuel, fillFields env (fuel + 1 + 1 + 1) (.cons fname tags true fty .nil)
      (.cons v .nil) variant =
      .error (.err (("testfill: failed to set field " ++ fname ++ ": ") ++
        ("factory function panicked: " ++ m))) := by
    intro fuel
    rw [fillFields.eq_def]
    simp [hof]
  have hfuel : tyFuel (.tStruct nm (.cons fname tags true fty .nil)) =
      tyFuel fty + 1 + 1 + 1 := rfl
  simp only [FillWithVariant, hfuel, hff]

/-- Witness for C5 on the repository's always-panicking factory fixture:
the overall result is the zero value plus the wrapped panic-text error,
exactly as the test `when factory function panics returns error` asserts. -/
theorem claimC5_witness :
    FillWithVariant envPanic
        (.tStruct "S" (.cons "CustomVOWithPanic" [("testfill", "factory:Boom")] true
          .tString .nil))
        (.vStruct (.cons (.vStr "") .nil)) "" =
      .fail (zeroVal (.tStruct "S" (.cons "CustomVOWithPanic"
          [("testfill", "factory:Boom")] true .tString .nil)))
        (("testfill: failed to set field " ++ "CustomVOWithPanic" ++ ": ") ++
          ("factory function panicked: " ++ "this factory always panics")) :=
  claimC5_factory_panic envPanic "S" "CustomVOWithPanic" [("testfill", "factory:Boom")]
    .tString (.vStr "") "" "factory:Boom" "Boom" "Boom" [] boomEntry [] "this factory always panics"
    (by decide) (by decide) (by decide) (by decide) (by decide) (by decide) (by decide)
    rfl (by decide) rfl (by decide)

end Testfill

namespace Testfill

theorem tyFuel_pos (t : Ty) : 1 ≤ tyFuel t := by
  cases t <;> simp [tyFuel]

theorem fieldsFuel_pos (fs : Fields) : 1 ≤ fieldsFuel fs := by
  cases fs <;> simp [fieldsFuel]

theorem setFieldValue_prim (env : Env) (fuel : Nat) (ty : Ty) (t : String) (w : Value)
    (hcv : hasConverter ty = true)
    (hun : goStartsWith t "unmarshal:" = false)
    (hfa : goStartsWith t "factory:" = false)
    (hc : convertStringToType t ty = .ok w) :
    setFieldValue env (fuel + 1) ty t = .ok w := by
  rw [setFieldValue.eq_def]
  cases ty <;> simp_all [hasConverter, liftErr]

theorem fillOneField_skip (env : Env) (fuel : Nat) (n : String)
    (tags : List (String × String)) (ty : Ty) (v : Value) (variant : String)
    (hnz : isZero v = false)
    (hnfill : getTagValueForVariant tags variant ≠ "fill") :
    fillOneField env (fuel + 1) n tags true ty v variant = .ok v := by
  rw [fillOneField.eq_def]
  by_cases he : getTagValueForVariant tags variant = ""
  · simp [he]
  · simp [he, hnfill, hnz]

theorem fillFields_lit (env : Env) :
    ∀ (fs : Fields) (vs ws : Values) (fuel : Nat),
      litFields fs vs ws = true → fieldsFuel fs ≤ fuel →
      fillFields env fuel fs vs "" = .ok ws
  | .nil => by
    intro vs ws fuel h hf
    cases vs with
    | cons v vtl => simp [litFields] at h
    | nil =>
      cases ws with
      | cons w wtl => simp [litFields] at h
      | nil =>
        have h1 : 1 ≤ fieldsFuel Fields.nil := fieldsFuel_pos _
        obtain ⟨f2, rfl⟩ : ∃ f2, fuel = f2 + 1 := ⟨fuel - 1, by omega⟩
        simp [fillFields]
  | .cons n tags exp ty rest => by
    intro vs ws fuel h hf
    have ih := fun vtl wtl fuel => fillFields_lit env rest vtl wtl fuel
    cases vs with
    | nil => simp [litFields] at h
    | cons v vtl =>
      cases ws with
      | nil => simp [litFields] at h
      | cons w wtl =>
        rw [litFields] at h
        rw [Bool.and_eq_true] at h
        obtain ⟨h1, h2⟩ := h
        have hffc : fieldsFuel (.cons n tags exp ty rest) = tyFuel ty + fieldsFuel rest + 1 :=
          rfl
        have hty1 : 1 ≤ tyFuel ty := tyFuel_pos ty
        have hr1 : 1 ≤ fieldsFuel rest := fieldsFuel_pos rest
        obtain ⟨f2, rfl⟩ : ∃ f2, fuel = f2 + 1 + 1 + 1 := ⟨fuel - 3, by omega⟩
        have hrest : fillFields env (f2 + 1 + 1) rest vtl "" = .ok wtl := by
          apply ih vtl wtl _ h2
          omega
        clear ih
        have hone : fillOneField env (f2 + 1 + 1) n tags exp ty v "" = .ok w := by
          cases exp with
          | false =>
            simp at h1
            rw [fillOneField.eq_def]
            simp [h1]
          | true =>
            simp only [if_neg (by simp : ¬(true = false))] at h1
            by_cases ht : tagGet tags "testfill" = ""
            · rw [if_pos ht] at h1
              simp at h1
              rw [fillOneField.eq_def]
              simp [getTagValueForVariant, ht, h1]
            · rw [if_neg ht] at h1
              simp only [Bool.and_eq_true, Bool.not_eq_true', beq_eq_false_iff_ne,
                beq_iff_eq] at h1
              obtain ⟨⟨⟨⟨⟨hcv, hfill⟩, hun⟩, hfa⟩, hz⟩, hc⟩ := h1
              rw [fillOneField.eq_def]
              have hres : getTagValueForVariant tags "" = tagGet tags "testfill" := by
                simp [getTagValueForVariant]
              simp only [hres, if_neg (by simp : ¬(true = false)), if_neg hfill, if_neg ht,
                hz]
              rw [setFieldValue_prim env f2 ty _ w hcv hun hfa hc]
              simp [errMap]
        rw [fillFields.eq_def]
        simp only [hone, hrest]
  
end Testfill

namespace Testfill

/-- Claim C2: on a structure whose taggable fields are all at their zero
values and whose tags are valid literals for the fields' (converter-backed)
kinds, `Fill` returns no error and every tagged field holds its literal's
converted, typed value; and a field already holding a non-zero value is
skipped untouched by the walker, so an integer field tagged `42` starting
at zero becomes 42 while one starting at 7 stays 7. -/
theorem claimC2_literal_fill (env : Env) :
    (∀ nm fs vs ws, litFields fs vs ws = true →
      Fill env (.tStruct nm fs) (.vStruct vs) = .ok (.vStruct ws)) ∧
    (∀ fuel n tags ty v variant, isZero v = false →
      getTagValueForVariant tags variant ≠ "fill" →
      fillOneField env (fuel + 1) n tags true ty v variant = .ok v) := by
  constructor
  · intro nm fs vs ws h
    have heq : tyFuel (.tStruct nm fs) = fieldsFuel fs + 1 := rfl
    have hfuel : fieldsFuel fs ≤ tyFuel (.tStruct nm fs) := by omega
    have hlit := fillFields_lit env fs vs ws (tyFuel (.tStruct nm fs)) h hfuel
    simp only [Fill, fillStruct, hlit]
  · intro fuel n tags ty v variant h1 h2
    exact fillOneField_skip env fuel n tags ty v variant h1 h2

/-- Witness for C2: the test-suite's `Bar` fills from zero to
`{42, "Olivie Smith"}`, and its integer field pre-set to 7 is left at 7. -/
theorem claimC2_witness :
    Fill envA tyBar (zeroVal tyBar) = .ok (.vStruct barFilledVals) ∧
    fillOneField envA (4 + 1) "Integer" [("testfill", "42")] true .tInt (.vInt 7) "" =
      .ok (.vInt 7) :=
  ⟨(claimC2_literal_fill envA).1 "testfill.Bar" barFields (zeroFields barFields)
     barFilledVals (by decide),
   (claimC2_literal_fill envA).2 4 "Integer" [("testfill", "42")] .tInt (.vInt 7) ""
     (by decide) (by decide)⟩

end Testfill

namespace Testfill

theorem preservesVs_to_struct {fs gs : Values} (h : preservesVs fs gs = true) :
    preserves (.vStruct fs) (.vStruct gs) = true := by
  rw [preserves.eq_def]
  simp [isZero, h]

theorem preserves_ptr {a b : Value} (h : preserves a b = true) :
    preserves (.vPtr a) (.vPtr b) = true := by
  rw [preserves.eq_def]
  simp [isZero, h]

/-- The write-only-into-zero invariant, proved for every fuel level over
the whole mutual walk: a successful walk relates input to output by
`preserves` — non-zero components survive unchanged at every depth. -/
theorem fill_preserves (env : Env) : ∀ fuel : Nat,
    (∀ fs vals variant out, fillFields env fuel fs vals variant = .ok out →
      preservesVs vals out = true) ∧
    (∀ n tags exp ty v variant out,
      fillOneField env fuel n tags exp ty v variant = .ok out → preserves v out = true) ∧
    (∀ n ty v variant out,
      handleNestedFillWithVariant env fuel n ty v variant = .ok out →
      preserves v out = true) := by
  intro fuel
  induction fuel with
  | zero =>
    refine ⟨fun fs vals variant out h => ?_, fun n tags exp ty v variant out h => ?_,
      fun n ty v variant out h => ?_⟩
    all_goals simp [fillFields, fillOneField, handleNestedFillWithVariant] at h
  | succ fuel ih =>
    obtain ⟨ihF, ihO, ihH⟩ := ih
    refine ⟨?_, ?_, ?_⟩
    · intro fs vals variant out h
      cases fs with
      | nil =>
        rw [fillFields.eq_def] at h
        simp at h
        subst h
        exact preservesVs_refl _
      | cons n tags exp ty rest =>
        cases vals with
        | nil =>
          rw [fillFields.eq_def] at h
          simp at h
          subst h
          simp [preservesVs]
        | cons v vtl =>
          rw [fillFields.eq_def] at h
          simp only at h
          cases h1 : fillOneField env fuel n tags exp ty v variant with
          | error e => rw [h1] at h; simp at h
          | ok v2 =>
            rw [h1] at h
            cases h2 : fillFields env fuel rest vtl variant with
            | error e => rw [h2] at h; simp at h
            | ok vs2 =>
              rw [h2] at h
              simp at h
              subst h
              rw [preservesVs]
              simp [ihO n tags exp ty v variant v2 h1, ihF rest vtl variant vs2 h2]
    · intro n tags exp ty v variant out h
      rw [fillOneField.eq_def] at h
      simp only at h
      by_cases hexp : exp = false
      · rw [if_pos hexp] at h
        simp at h
        subst h
        exact preserves_refl _
      · rw [if_neg hexp] at h
        by_cases hf : getTagValueForVariant tags variant = "fill"
        · rw [if_pos hf] at h
          exact ihH n ty v variant out h
        · rw [if_neg hf] at h
          by_cases he : getTagValueForVariant tags variant = ""
          · rw [if_pos he] at h
            simp at h
            subst h
            exact preserves_refl _
          · rw [if_neg he] at h
            by_cases hz : isZero v = false
            · rw [if_pos hz] at h
              simp at h
              subst h
              exact preserves_refl _
            · rw [if_neg hz] at h
              have hz2 : isZero v = true := by
                cases hb : isZero v
                · exact absurd hb hz
                · rfl
              exact preserves_of_isZero out hz2
    · intro n ty v variant out h
      rw [handleNestedFillWithVariant.eq_def] at h
      simp only at h
      split at h
      · rw [errMap_eq_ok] at h
        rw [exceptMap_eq_ok] at h
        obtain ⟨ws, hws, rfl⟩ := h
        exact preservesVs_to_struct (ihF _ _ variant ws hws)
      · rw [errMap_eq_ok] at h
        rw [exceptMap_eq_ok] at h
        obtain ⟨ws, hws, rfl⟩ := h
        exact preserves_of_isZero _ (by simp [isZero])
      · rw [errMap_eq_ok] at h
        rw [exceptMap_eq_ok] at h
        obtain ⟨ws2, hws2, rfl⟩ := h
        exact preserves_ptr (preservesVs_to_struct (ihF _ _ variant ws2 hws2))
      · simp at h
        subst h
        exact preserves_refl _

theorem fillWithVariant_preserves (env : Env) (t : Ty) (v : Value) (variant : String)
    (out : Value) (h : FillWithVariant env t v variant = .ok out) :
    preserves v out = true := by
  cases t <;>
    first
      | (simp only [FillWithVariant] at h; exact absurd h (by simp))
      | skip
  case tStruct nm fs =>
    cases v with
    | vStruct vs =>
      simp only [FillWithVariant] at h
      split at h
      next ws hws =>
        simp only [FillResult.ok.injEq] at h
        subst h
        exact preservesVs_to_struct
          ((fill_preserves env (tyFuel (.tStruct nm fs))).1 fs vs variant ws hws)
      all_goals simp at h
    | vInt a =>
      simp only [FillWithVariant, FillResult.ok.injEq] at h; subst h; exact preserves_refl _
    | vUint a =>
      simp only [FillWithVariant, FillResult.ok.injEq] at h; subst h; exact preserves_refl _
    | vBool a =>
      simp only [FillWithVariant, FillResult.ok.injEq] at h; subst h; exact preserves_refl _
    | vStr a =>
      simp only [FillWithVariant, FillResult.ok.injEq] at h; subst h; exact preserves_refl _
    | vNil =>
      simp only [FillWithVariant, FillResult.ok.injEq] at h; subst h; exact preserves_refl _
    | vPtr a =>
      simp only [FillWithVariant, FillResult.ok.injEq] at h; subst h; exact preserves_refl _
    | vSlice a =>
      simp only [FillWithVariant, FillResult.ok.injEq] at h; subst h; exact preserves_refl _
    | vMap a =>
      simp only [FillWithVariant, FillResult.ok.injEq] at h; subst h; exact preserves_refl _

/-- Claim C1: for every input structure and variant, whenever a fill
succeeds, the result `preserves` the input: the engine wrote only into
components that were at their type's zero value, and any field (at any
recursion depth, pre-populated collection elements included) holding a
non-zero value appears unchanged in the returned copy. -/
theorem claimC1_writes_only_zero_fields (env : Env) (t : Ty) (v : Value)
    (variant : String) (out out2 : Value) :
    (Fill env t v = .ok out → preserves v out = true) ∧
    (FillWithVariant env t v variant = .ok out2 → preserves v out2 = true) := by
  constructor
  · intro h
    exact fillWithVariant_preserves env t v "" out h
  · exact fillWithVariant_preserves env t v variant out2

/-- Witness for C1: `Bar` with its integer pre-set to 7 fills to
`{7, "Olivie Smith"}`, which preserves the input. -/
theorem claimC1_witness :
    Fill envA tyBar barAt7 = .ok barAt7Filled ∧ preserves barAt7 barAt7Filled = true :=
  ⟨by decide,
   (claimC1_writes_only_zero_fields envA tyBar barAt7 "" barAt7Filled barAt7Filled).1
     (by decide)⟩

end Testfill
